import Mathlib

/-!
Shallow embedding of the APEX core (coordinator plus the four engines:
executor, math, telemetry, transactions) and proofs of its specified
properties.

Modelling conventions:
* Rust `f64` arithmetic in the math engine is idealised as exact rational
  arithmetic (`ℚ`); the spec states its numeric properties up to
  floating-point tolerance, and division by zero in `ℚ` yields `0` where
  IEEE arithmetic would yield `NaN`.
* `f64` values that are merely carried, never computed with (transaction
  amounts, telemetry values), are modelled by `FloatVal`, which keeps the
  non-finite values `NaN`, `+inf`, `-inf` distinct so that validation-free
  pass-through can be stated.
* `anyhow::Result<T>` is modelled by `Except String T`.
* `Uuid::new_v4()` draws from a process-wide external entropy source that
  the uuid crate guarantees to be collision-free; it is modelled as a
  fresh-value supply (`UuidGen`) threaded explicitly as state, each draw
  yielding a value never yielded before.
* A Rust method logging via `tracing::info!` and otherwise returning is
  modelled by its returned value; for the telemetry engine, whose whole
  observable behaviour is the set of sink calls it makes, `record` returns
  the list of sink calls performed.
-/

/-- Model of an IEEE-754 double that is carried but never computed with:
either a finite value (an exact rational) or one of the non-finite values. -/
inductive FloatVal where
  | finite (q : ℚ)
  | nan
  | posInf
  | negInf
deriving DecidableEq

/-- A `FloatVal` is finite when it is neither NaN nor an infinity. -/
def FloatVal.isFinite : FloatVal → Bool
  | .finite _ => true
  | _ => false

/-- Non-negativity of a `FloatVal`; NaN is not non-negative. -/
def FloatVal.nonneg : FloatVal → Bool
  | .finite q => decide (0 ≤ q)
  | .posInf => true
  | _ => false

/-- The math engine (`MathEngine` in `engines/math_engine/src/lib.rs`):
holds only a configured precision, currently unused by its operations. -/
structure MathEngine where
  precision : Nat
deriving DecidableEq

/-- `MathEngine::new(precision)`. -/
def MathEngine.new (precision : Nat) : MathEngine :=
  { precision := precision }

/-- `MathEngine::moving_average(&self, data, window)`.  The Rust loop runs
`i` over `window..=data.len()`, pushing `data[i-window..i].sum() / window`;
here the loop index is shifted to `j = i - window`, which runs over
`0 .. data.len() + 1 - window`, and the slice `data[i-window..i]` becomes
`(data.drop j).take window`.  The guard `data.len() < window` returns
`Ok(vec![])`.  The body never constructs an error. -/
def MathEngine.moving_average (_e : MathEngine) (data : List ℚ) (window : Nat) :
    Except String (List ℚ) :=
  if data.length < window then
    Except.ok []
  else
    Except.ok ((List.range (data.length + 1 - window)).map (fun j =>
      ((data.drop j).take window).sum / (window : ℚ)))

/-- `MathEngine::std_deviation(&self, data)`: returns `0.0` for empty input,
otherwise the square root of the population variance (mean of squared
deviations from the mean, divisor `data.len()`). -/
noncomputable def MathEngine.std_deviation (_e : MathEngine) (data : List ℚ) : ℝ :=
  if data.isEmpty then
    0
  else
    let mean : ℚ := data.sum / (data.length : ℚ)
    let variance : ℚ := (data.map (fun x => (x - mean) ^ 2)).sum / (data.length : ℚ)
    Real.sqrt (variance : ℝ)

/-- Transaction status (`TxStatus` in `engines/tx_engine/src/lib.rs`). -/
inductive TxStatus where
  | Pending
  | Confirmed
  | Failed
deriving DecidableEq

/-- `Transaction { id, status, amount }`.  The uuid-v4 string identifier is
modelled by the index of the draw that produced it (`Uuid::to_string` is
injective, so distinctness of draws and of id strings coincide). -/
structure Transaction where
  id : Nat
  status : TxStatus
  amount : FloatVal
deriving DecidableEq

/-- The process-wide uuid-v4 entropy source, modelled as a fresh-value
supply: `next` is the value the next draw yields. -/
structure UuidGen where
  next : Nat
deriving DecidableEq

/-- `Uuid::new_v4()`: draw a fresh value and advance the supply. -/
def UuidGen.new_v4 (g : UuidGen) : Nat × UuidGen :=
  (g.next, { next := g.next + 1 })

/-- The transaction engine (`TxEngine`): holds only an `active` flag. -/
structure TxEngine where
  active : Bool
deriving DecidableEq

/-- `TxEngine::new()`. -/
def TxEngine.new : TxEngine :=
  { active := true }

/-- `TxEngine::create_transaction(&self, amount)`: draws a fresh id, builds
the transaction with status `Pending` and the given amount unchanged, and
returns it wrapped in `Ok`.  No validation of `amount` is performed.  The
uuid supply is threaded as explicit state. -/
def TxEngine.create_transaction (_e : TxEngine) (g : UuidGen) (amount : FloatVal) :
    Except String Transaction × UuidGen :=
  let p := UuidGen.new_v4 g
  (Except.ok { id := p.1, status := TxStatus.Pending, amount := amount }, p.2)

/-- `TxEngine::submit(&self, tx)`: logs and returns `Ok(())`.  The
transaction is taken by shared reference and never written through, so the
embedding returns it unchanged alongside the result. -/
def TxEngine.submit (_e : TxEngine) (tx : Transaction) :
    Except String Unit × Transaction :=
  (Except.ok (), tx)

/-- A sequence of `create_transaction` calls, one per listed amount,
threading the uuid supply; returns the successfully created transactions in
order together with the final supply state. -/
def TxEngine.create_seq (e : TxEngine) : UuidGen → List FloatVal → List Transaction × UuidGen
  | g, [] => ([], g)
  | g, a :: as =>
    match TxEngine.create_transaction e g a with
    | (Except.ok tx, g') =>
      let rest := TxEngine.create_seq e g' as
      (tx :: rest.1, rest.2)
    | (Except.error _, g') => TxEngine.create_seq e g' as

/-- `TelemetryData { timestamp, metric_name, value }`. -/
structure TelemetryData where
  timestamp : Nat
  metric_name : String
  value : FloatVal
deriving DecidableEq

/-- The telemetry engine (`TelemetryEngine`): holds only an `enabled` flag. -/
structure TelemetryEngine where
  enabled : Bool
deriving DecidableEq

/-- `TelemetryEngine::new()`. -/
def TelemetryEngine.new : TelemetryEngine :=
  { enabled := true }

/-- `TelemetryEngine::record(&self, data)`: if enabled, forwards the
observation to the logging sink once; otherwise does nothing.  The returned
list is the sequence of sink calls the invocation performs. -/
def TelemetryEngine.record (e : TelemetryEngine) (data : TelemetryData) :
    List TelemetryData :=
  if e.enabled then [data] else []

/-- The executor engine (`Executor`): holds only an `active` flag. -/
structure Executor where
  active : Bool
deriving DecidableEq

/-- `Executor::new()`. -/
def Executor.new : Executor :=
  { active := true }

/-- `Executor::execute(&self)`: always reports success. -/
def Executor.execute (_e : Executor) : Except String Unit :=
  Except.ok ()

/-- `ApexCore` (in `apex_core/src/lib.rs`): the coordinator owning one
instance of each engine plus the `initialized` flag. -/
structure ApexCore where
  initialized : Bool
  executor : Executor
  math_engine : MathEngine
  telemetry : TelemetryEngine
  tx_engine : TxEngine
deriving DecidableEq

/-- `ApexCore::new()`: constructs all four engines eagerly,
`initialized = false`. -/
def ApexCore.new : ApexCore :=
  { initialized := false
    executor := Executor.new
    math_engine := MathEngine.new 8
    telemetry := TelemetryEngine.new
    tx_engine := TxEngine.new }

/-- `ApexCore::initialize(&mut self)` (named `initializeCore` here): logs,
sets `initialized = true`, returns `Ok(())`.  The Rust accessors
`executor()`, `math_engine()`, `telemetry()`, `tx_engine()` return
`&self.field` and are modelled by the structure projections. -/
def ApexCore.initializeCore (c : ApexCore) : Except String Unit × ApexCore :=
  (Except.ok (), { c with initialized := true })

/-- A contiguous slice of a list, written with `drop`/`take`, enumerated by
its indices. -/
lemma drop_take_eq_map_range (l : List ℚ) (i w : Nat) (h : i + w ≤ l.length) :
    (l.drop i).take w = (List.range w).map (fun k => l.getD (i + k) 0) := by
  apply List.ext_getElem
  · simp
    omega
  · intro k h1 h2
    simp only [List.getElem_take, List.getElem_drop, List.getElem_map,
      List.getElem_range]
    rw [List.getD_eq_getElem]

/-- Summing a function over `List.range` agrees with the `Finset.range` sum. -/
lemma sum_map_range_eq (f : ℕ → ℚ) (n : ℕ) :
    ((List.range n).map f).sum = ∑ k ∈ Finset.range n, f k := by
  induction n with
  | zero => simp
  | succ m ih =>
    rw [List.range_succ, List.map_append, List.sum_append, Finset.sum_range_succ, ih]
    simp

/-- C1: for every non-empty sequence `D` and window `w` with
`0 < w ≤ len(D)`, `moving_average(D, w)` succeeds with a sequence of length
`len(D) - w + 1` whose element `i` is the arithmetic mean of `D[i..i+w]`. -/
theorem moving_average_valid_window (e : MathEngine) (D : List ℚ) (w : Nat)
    (_hw : 0 < w) (hlen : w ≤ D.length) :
    ∃ r, MathEngine.moving_average e D w = Except.ok r ∧
      r.length = D.length - w + 1 ∧
      ∀ i, i < r.length →
        r.getD i 0 = (∑ k ∈ Finset.range w, D.getD (i + k) 0) / (w : ℚ) := by
  refine ⟨(List.range (D.length + 1 - w)).map
      (fun j => ((D.drop j).take w).sum / (w : ℚ)), ?_, ?_, ?_⟩
  · unfold MathEngine.moving_average
    rw [if_neg (by omega)]
  · simp
    omega
  · intro i hi
    simp only [List.length_map, List.length_range] at hi
    rw [List.getD_eq_getElem _ _ (by simpa using hi)]
    simp only [List.getElem_map, List.getElem_range]
    rw [drop_take_eq_map_range D i w (by omega), sum_map_range_eq]

/-- Witness for C1 at `D = [1,2,3,4,5]`, `w = 3`. -/
theorem moving_average_valid_window_witness :
    (0 < 3 ∧ 3 ≤ ([1, 2, 3, 4, 5] : List ℚ).length) ∧
    ∃ r, MathEngine.moving_average (MathEngine.new 8) [1, 2, 3, 4, 5] 3 = Except.ok r ∧
      r.length = ([1, 2, 3, 4, 5] : List ℚ).length - 3 + 1 ∧
      ∀ i, i < r.length →
        r.getD i 0 = (∑ k ∈ Finset.range 3, ([1, 2, 3, 4, 5] : List ℚ).getD (i + k) 0) / (3 : ℚ) :=
  ⟨⟨by decide, by decide⟩,
    moving_average_valid_window (MathEngine.new 8) [1, 2, 3, 4, 5] 3 (by decide) (by decide)⟩

/-- C2: `moving_average(D, w)` with `w > len(D)` returns the empty sequence
successfully, for any `D`. -/
theorem moving_average_short_data (e : MathEngine) (D : List ℚ) (w : Nat)
    (h : D.length < w) :
    MathEngine.moving_average e D w = Except.ok [] := by
  unfold MathEngine.moving_average
  rw [if_pos h]

/-- Witness for C2 at `D = [1,2]`, `w = 5`. -/
theorem moving_average_short_data_witness :
    ([1, 2] : List ℚ).length < 5 ∧
    MathEngine.moving_average (MathEngine.new 8) [1, 2] 5 = Except.ok [] :=
  ⟨by decide, moving_average_short_data (MathEngine.new 8) [1, 2] 5 (by decide)⟩

/-- C9: `moving_average` is total and never returns an error: every call
returns `Ok`; with `window = 0` the guard `len(data) < 0` is false, so the
result has length `len(data) + 1` and every element is the value of the
division `0/0` (the empty slice's sum over a zero window; `NaN` in IEEE
arithmetic, `0` in the exact-rational idealisation used here). -/
theorem moving_average_total :
    (∀ (e : MathEngine) (data : List ℚ) (w : Nat),
      ∃ r, MathEngine.moving_average e data w = Except.ok r) ∧
    (∀ (e : MathEngine) (data : List ℚ),
      ∃ r, MathEngine.moving_average e data 0 = Except.ok r ∧
        r.length = data.length + 1 ∧ ∀ q ∈ r, q = (0 : ℚ) / 0) := by
  constructor
  · intro e data w
    unfold MathEngine.moving_average
    by_cases h : data.length < w
    · exact ⟨[], by rw [if_pos h]⟩
    · exact ⟨_, by rw [if_neg h]⟩
  · intro e data
    refine ⟨(List.range (data.length + 1)).map
        (fun j => ((data.drop j).take 0).sum / ((0 : Nat) : ℚ)), ?_, ?_, ?_⟩
    · unfold MathEngine.moving_average
      rw [if_neg (by omega)]
      norm_num
    · simp
    · intro q hq
      simp only [List.mem_map, List.take_zero, List.sum_nil] at hq
      obtain ⟨j, _, hj⟩ := hq
      simp at hj
      simp [hj.symm]

/-- Summing a function of the elements of a list agrees with summing it over
the list's index range. -/
lemma sum_map_eq_sum_range_getD (f : ℚ → ℚ) (l : List ℚ) :
    (l.map f).sum = ∑ k ∈ Finset.range l.length, f (l.getD k 0) := by
  induction l with
  | nil => simp
  | cons a as ih =>
    rw [List.map_cons, List.sum_cons, List.length_cons, Finset.sum_range_succ']
    simp only [List.getD_cons_succ, List.getD_cons_zero]
    rw [ih]
    ring

/-- The standard deviation of a constant sequence vanishes. -/
lemma std_deviation_replicate (e : MathEngine) (c : ℚ) (n : Nat) :
    MathEngine.std_deviation e (List.replicate n c) = 0 := by
  cases n with
  | zero => simp [MathEngine.std_deviation]
  | succ m =>
    unfold MathEngine.std_deviation
    rw [if_neg (by simp)]
    have hmean :
        (List.replicate (m + 1) c).sum / ((List.replicate (m + 1) c).length : ℚ) = c := by
      rw [List.sum_replicate, List.length_replicate, nsmul_eq_mul]
      field_simp
    rw [hmean]
    simp [List.map_replicate]

/-- C5: `std_deviation` returns `0` on the empty sequence, on every
single-element sequence, and on every constant sequence. -/
theorem std_deviation_degenerate_zero :
    (∀ e : MathEngine, MathEngine.std_deviation e [] = 0) ∧
    (∀ (e : MathEngine) (x : ℚ), MathEngine.std_deviation e [x] = 0) ∧
    (∀ (e : MathEngine) (c : ℚ) (n : Nat),
      MathEngine.std_deviation e (List.replicate n c) = 0) := by
  refine ⟨fun e => by simp [MathEngine.std_deviation], fun e x => ?_,
    fun e c n => std_deviation_replicate e c n⟩
  have h : [x] = List.replicate 1 x := rfl
  rw [h]
  exact std_deviation_replicate e x 1

/-- C6: `std_deviation` is the population standard deviation: its square is
the sum of squared deviations from the mean divided by the count (not the
count minus one), and on `[2,4,4,4,5,5,7,9]` it equals exactly `2`. -/
theorem std_deviation_population :
    MathEngine.std_deviation (MathEngine.new 8) [2, 4, 4, 4, 5, 5, 7, 9] = 2 ∧
    ∀ (e : MathEngine) (x : ℚ) (xs : List ℚ),
      (MathEngine.std_deviation e (x :: xs)) ^ 2 =
        (((∑ k ∈ Finset.range (x :: xs).length,
          ((x :: xs).getD k 0 - (x :: xs).sum / ((x :: xs).length : ℚ)) ^ 2) /
          ((x :: xs).length : ℚ) : ℚ) : ℝ) := by
  constructor
  · have h4 : MathEngine.std_deviation (MathEngine.new 8) [2, 4, 4, 4, 5, 5, 7, 9]
        = Real.sqrt (((4 : ℚ) : ℝ)) := by
      unfold MathEngine.std_deviation
      rw [if_neg (by simp)]
      norm_num
    rw [h4]
    have : ((4 : ℚ) : ℝ) = 2 ^ 2 := by norm_num
    rw [this, Real.sqrt_sq (by norm_num)]
  · intro e x xs
    unfold MathEngine.std_deviation
    rw [if_neg (by simp)]
    have hnn : (0 : ℚ) ≤
        ((x :: xs).map (fun y => (y - (x :: xs).sum / ((x :: xs).length : ℚ)) ^ 2)).sum /
          ((x :: xs).length : ℚ) := by
      apply div_nonneg
      · apply List.sum_nonneg
        intro y hy
        simp only [List.mem_map] at hy
        obtain ⟨z, _, hz⟩ := hy
        rw [← hz]
        exact sq_nonneg _
      · exact_mod_cast Nat.zero_le _
    rw [Real.sq_sqrt (by exact_mod_cast hnn)]
    rw [sum_map_eq_sum_range_getD]

/-- The ids issued by a run of `create_seq` are the consecutive values of
the uuid supply starting at its current state. -/
lemma create_seq_ids (e : TxEngine) (l : List FloatVal) :
    ∀ g : UuidGen, ((TxEngine.create_seq e g l).1.map Transaction.id) =
      (List.range l.length).map (fun k => g.next + k) := by
  induction l with
  | nil =>
    intro g
    simp [TxEngine.create_seq]
  | cons a as ih =>
    intro g
    simp only [TxEngine.create_seq, TxEngine.create_transaction, UuidGen.new_v4,
      List.map_cons, List.length_cons]
    rw [ih { next := g.next + 1 }, List.range_succ_eq_map, List.map_cons,
      List.map_map]
    refine congrArg (fun t => g.next :: t) ?_
    apply List.map_congr_left
    intro k _
    simp [Function.comp]
    omega

/-- Every transaction produced by a run of `create_seq` has status
`Pending`. -/
lemma create_seq_status (e : TxEngine) (l : List FloatVal) :
    ∀ g : UuidGen, ∀ tx ∈ (TxEngine.create_seq e g l).1,
      tx.status = TxStatus.Pending := by
  induction l with
  | nil =>
    intro g tx h
    simp [TxEngine.create_seq] at h
  | cons a as ih =>
    intro g tx h
    simp only [TxEngine.create_seq, TxEngine.create_transaction, UuidGen.new_v4] at h
    rcases List.mem_cons.mp h with h1 | h2
    · rw [h1]
    · exact ih { next := g.next + 1 } tx h2

/-- A run of `create_seq` produces one transaction per requested amount:
every call succeeded. -/
lemma create_seq_length (e : TxEngine) (l : List FloatVal) :
    ∀ g : UuidGen, (TxEngine.create_seq e g l).1.length = l.length := by
  induction l with
  | nil =>
    intro g
    simp [TxEngine.create_seq]
  | cons a as ih =>
    intro g
    simp only [TxEngine.create_seq, TxEngine.create_transaction, UuidGen.new_v4,
      List.length_cons]
    rw [ih { next := g.next + 1 }]

/-- C3: over any sequence of `create_transaction` calls with finite
non-negative amounts, every call succeeds (one transaction per call), every
returned transaction has status `Pending`, and the issued identifiers are
pairwise distinct — no identifier is ever issued twice in the process's
lifetime. -/
theorem create_transaction_pending_unique (e : TxEngine) (g : UuidGen)
    (amounts : List FloatVal)
    (_hfin : ∀ a ∈ amounts, FloatVal.isFinite a = true)
    (_hnn : ∀ a ∈ amounts, FloatVal.nonneg a = true) :
    (TxEngine.create_seq e g amounts).1.length = amounts.length ∧
    (∀ tx ∈ (TxEngine.create_seq e g amounts).1, tx.status = TxStatus.Pending) ∧
    ((TxEngine.create_seq e g amounts).1.map Transaction.id).Nodup := by
  refine ⟨create_seq_length e amounts g, create_seq_status e amounts g, ?_⟩
  rw [create_seq_ids e amounts g]
  refine List.Nodup.map ?_ (List.nodup_range amounts.length)
  intro a b hab
  dsimp only at hab
  omega

/-- Witness for C3: three creations with amounts `5`, `0`, `3` from a
fresh supply. -/
theorem create_transaction_pending_unique_witness :
    ((∀ a ∈ [FloatVal.finite 5, FloatVal.finite 0, FloatVal.finite 3],
        FloatVal.isFinite a = true) ∧
     (∀ a ∈ [FloatVal.finite 5, FloatVal.finite 0, FloatVal.finite 3],
        FloatVal.nonneg a = true)) ∧
    ((TxEngine.create_seq TxEngine.new { next := 0 }
        [FloatVal.finite 5, FloatVal.finite 0, FloatVal.finite 3]).1.length = 3 ∧
     (∀ tx ∈ (TxEngine.create_seq TxEngine.new { next := 0 }
        [FloatVal.finite 5, FloatVal.finite 0, FloatVal.finite 3]).1,
        tx.status = TxStatus.Pending) ∧
     ((TxEngine.create_seq TxEngine.new { next := 0 }
        [FloatVal.finite 5, FloatVal.finite 0, FloatVal.finite 3]).1.map
          Transaction.id).Nodup) :=
  ⟨⟨by decide, by decide⟩,
    create_transaction_pending_unique TxEngine.new { next := 0 }
      [FloatVal.finite 5, FloatVal.finite 0, FloatVal.finite 3]
      (by decide) (by decide)⟩

/-- C7: `submit` succeeds and does not mutate the submitted transaction:
identifier, status and amount after the call are exactly those before it. -/
theorem submit_preserves_transaction (e : TxEngine) (tx : Transaction) :
    (TxEngine.submit e tx).1 = Except.ok () ∧
    (TxEngine.submit e tx).2.id = tx.id ∧
    (TxEngine.submit e tx).2.status = tx.status ∧
    (TxEngine.submit e tx).2.amount = tx.amount :=
  ⟨rfl, rfl, rfl, rfl⟩

/-- C10: `create_transaction` performs no validation of its argument: for
every amount, NaN and the infinities included, it returns `Ok` and the
returned transaction's amount field is exactly the amount passed in. -/
theorem create_transaction_no_validation (e : TxEngine) (g : UuidGen)
    (amount : FloatVal) :
    ∃ tx, (TxEngine.create_transaction e g amount).1 = Except.ok tx ∧
      tx.amount = amount :=
  ⟨{ id := g.next, status := TxStatus.Pending, amount := amount }, rfl, rfl⟩

/-- C8: `record` on a disabled engine performs zero sink calls; on an
enabled engine it performs exactly one sink call per invocation, carrying
the observation's timestamp, metric name and value unchanged. -/
theorem record_sink_calls (e : TelemetryEngine) (d : TelemetryData) :
    (e.enabled = false → TelemetryEngine.record e d = []) ∧
    (e.enabled = true → ∃ out, TelemetryEngine.record e d = [out] ∧
      out.timestamp = d.timestamp ∧ out.metric_name = d.metric_name ∧
      out.value = d.value) := by
  constructor
  · intro h
    simp [TelemetryEngine.record, h]
  · intro h
    exact ⟨d, by simp [TelemetryEngine.record, h], rfl, rfl, rfl⟩

/-- Witness for C8, at a disabled and an enabled engine. -/
theorem record_sink_calls_witness :
    (TelemetryEngine.record { enabled := false }
      { timestamp := 7, metric_name := "latency", value := FloatVal.finite 1 } = []) ∧
    (∃ out, TelemetryEngine.record { enabled := true }
      { timestamp := 7, metric_name := "latency", value := FloatVal.finite 1 } = [out] ∧
      out.timestamp = 7 ∧ out.metric_name = "latency" ∧
      out.value = FloatVal.finite 1) :=
  ⟨(record_sink_calls { enabled := false }
      { timestamp := 7, metric_name := "latency", value := FloatVal.finite 1 }).1 rfl,
   (record_sink_calls { enabled := true }
      { timestamp := 7, metric_name := "latency", value := FloatVal.finite 1 }).2 rfl⟩

/-- C4: constructing the coordinator and initializing it succeeds and sets
`initialized = true` with all four engine accessors returning the
constructed engines; a second initialization also succeeds and leaves the
whole observable state, the engines included, unchanged. -/
theorem apex_core_initialization_idempotent :
    (ApexCore.initializeCore ApexCore.new).1 = Except.ok () ∧
    (ApexCore.initializeCore ApexCore.new).2.initialized = true ∧
    (ApexCore.initializeCore ApexCore.new).2.executor = Executor.new ∧
    (ApexCore.initializeCore ApexCore.new).2.math_engine = MathEngine.new 8 ∧
    (ApexCore.initializeCore ApexCore.new).2.telemetry = TelemetryEngine.new ∧
    (ApexCore.initializeCore ApexCore.new).2.tx_engine = TxEngine.new ∧
    (ApexCore.initializeCore (ApexCore.initializeCore ApexCore.new).2).1 = Except.ok () ∧
    (ApexCore.initializeCore (ApexCore.initializeCore ApexCore.new).2).2 =
      (ApexCore.initializeCore ApexCore.new).2 :=
  ⟨rfl, rfl, rfl, rfl, rfl, rfl, rfl, rfl⟩
